import Mathlib

/-! The "New Spot" form of aircnc_web (`src/pages/New/index.jsx`)

A shallow embedding of the form component: the validation schema `spotSchema`
(built from the combinators of the zod library), the error flattening used by
the submit handler, and `handleSubmit` itself as a function from the form state
to the next form state and the trace of effects it performs.

Conventions of the embedding.

* A JavaScript string is a Lean `String`.  The only string operations the
  component uses are `trim`, `length`, `===` and `parseFloat`; all the characters
  they inspect lie in the Basic Multilingual Plane.
* The thumbnail cell holds `null` (initial state), a `File` picked by the user
  or `undefined` (`event.target.files[0]` of an empty file list).
* Each zod schema is a function from the path and the input to the parse status
  and the issues it adds to the shared context, in the order they are added.
  The combinators follow the parse algorithm of the zod library, which the
  component imports: the issue of `instanceof` is fatal and aborts the parse, the
  issue of `refine` and of a string check is not and the later checks still run,
  `nullable` returns `null` without consulting the inner schema, an object parses
  every key of its shape, and `flatten` files each message under the first
  element of the path of its issue.
* The module `api`, the router and `localStorage` are outside the component: the
  calls to them are recorded as effects, and what they return is a parameter.
* `parseFloat` returns the exact decimal it read; rounding to a double is not
  modelled.  Rounding never turns a literal into `NaN`, and `isNaN` is the only
  observation the component makes.
-/

namespace AircncWeb

/-! ## Values -/

/-- The two properties of a DOM `File` that the schema reads. -/
structure File where
  size : Nat
  type : String
deriving DecidableEq

/-- The values the `thumbnail` state cell can hold. -/
inductive JSValue where
  | null
  | undefined
  | file (f : File)
deriving DecidableEq

/-! ## JavaScript strings -/

/-- WhiteSpace and LineTerminator code points of ECMA-262, the characters removed
by `String.prototype.trim` and skipped by `parseFloat`. -/
def isJsWhitespace (c : Char) : Bool :=
  let n := c.toNat
  n == 0x09 || n == 0x0A || n == 0x0B || n == 0x0C || n == 0x0D || n == 0x20 ||
  n == 0xA0 || n == 0x1680 || (0x2000 ≤ n && n ≤ 0x200A) || n == 0x2028 ||
  n == 0x2029 || n == 0x202F || n == 0x205F || n == 0x3000 || n == 0xFEFF

/-- Removal of trailing whitespace from a list of characters. -/
def trimEndChars (l : List Char) : List Char :=
  (l.reverse.dropWhile isJsWhitespace).reverse

/-- Removal of leading whitespace from a list of characters. -/
def trimStartChars (l : List Char) : List Char :=
  l.dropWhile isJsWhitespace

/-- The method `String.prototype.trim`. -/
def jsTrim (s : String) : String :=
  ⟨trimEndChars (trimStartChars s.data)⟩

/-- The property `length` of a string: the number of UTF-16 code units. -/
def jsLength (s : String) : Nat :=
  (s.data.map fun c => if c.toNat < 0x10000 then 1 else 2).sum

/-! ## parseFloat -/

/-- A number as far as the component observes it. -/
inductive JSNumber where
  | nan
  | infinity (negative : Bool)
  | decimal (negative : Bool) (mantissa : Nat) (exponent : Int)
deriving DecidableEq

/-- The global function `isNaN` on numbers. -/
def isNaN : JSNumber → Bool
  | .nan => true
  | _ => false

/-- DecimalDigit of the StrDecimalLiteral grammar. -/
def isDecimalDigit (c : Char) : Bool :=
  48 ≤ c.toNat && c.toNat ≤ 57

/-- The value of a run of decimal digits, most significant first. -/
def digitsValue (ds : List Char) : Nat :=
  ds.foldl (fun acc c => 10 * acc + (c.toNat - 48)) 0

/-- The optional sign of a literal: whether it is negative, and what follows. -/
def scanSign : List Char → Bool × List Char
  | '+' :: r => (false, r)
  | '-' :: r => (true, r)
  | r => (false, r)

/-- The optional ExponentPart: its value and what follows.  An exponent
indicator that is not followed by digits is not consumed. -/
def scanExponent : List Char → Int × List Char
  | [] => (0, [])
  | c :: r =>
    if c = 'e' ∨ c = 'E' then
      let (neg, r1) := scanSign r
      let ds := r1.takeWhile isDecimalDigit
      let r2 := r1.dropWhile isDecimalDigit
      if ds = [] then (0, c :: r)
      else (if neg then -(digitsValue ds : Int) else (digitsValue ds : Int), r2)
    else (0, c :: r)

/-- The longest StrUnsignedDecimalLiteral that starts the input, if there is
one: its value (negated when `neg`) and what follows it. -/
def scanUnsigned (neg : Bool) (u : List Char) : Option (JSNumber × List Char) :=
  if "Infinity".data.isPrefixOf u then
    some (.infinity neg, u.drop 8)
  else
    let ip := u.takeWhile isDecimalDigit
    let r1 := u.dropWhile isDecimalDigit
    let (fp, r2) :=
      match r1 with
      | '.' :: r => (r.takeWhile isDecimalDigit, r.dropWhile isDecimalDigit)
      | _ => ([], r1)
    if ip = [] ∧ fp = [] then none
    else
      let (e, r3) := scanExponent r2
      some (.decimal neg (digitsValue (ip ++ fp)) (e - fp.length), r3)

/-- The longest StrDecimalLiteral that starts the input, and what follows it. -/
def scanDecimalLiteral (t : List Char) : Option (JSNumber × List Char) :=
  let (neg, u) := scanSign t
  scanUnsigned neg u

/-- The global function `parseFloat`: leading whitespace is skipped, the longest
literal that starts the rest is read, and whatever follows it is ignored. -/
def parseFloat (s : String) : JSNumber :=
  match scanDecimalLiteral (trimStartChars s.data) with
  | some (n, _) => n
  | none => .nan

/-! ## The zod combinators used by the schema -/

/-- An issue of a zod error: the path of the offending value and the message. -/
structure ZodIssue where
  path : List String
  message : String
deriving DecidableEq

/-- The synchronous parse result of zod: `OK`, `DIRTY` (a value with issues
that do not stop the parse) or `INVALID` (aborted). -/
inductive ParseReturn (α : Type) where
  | valid (value : α)
  | dirty (value : α)
  | aborted
deriving DecidableEq

/-- A schema: from the path and the input to the parse result and the issues
added to the shared context, in order. -/
def ZodType (ι α : Type) : Type :=
  List String → ι → ParseReturn α × List ZodIssue

/-- The schema `z.instanceof(File, { message })`: a custom check whose issue is
fatal, so that the parse is aborted when the input is not a `File`. -/
def zInstanceofFile (message : String) : ZodType JSValue File :=
  fun path input =>
    match input with
    | .file f => (.valid f, [])
    | _ => (.aborted, [⟨path, message⟩])

/-- The method `.refine(check, message)`: the refinement is not run when the
inner parse was aborted; it is run when the inner parse is valid or dirty, and
its issue is not fatal. -/
def ZodType.refine {ι α : Type} (inner : ZodType ι α) (check : α → Bool)
    (message : String) : ZodType ι α :=
  fun path input =>
    match inner path input with
    | (.aborted, issues) => (.aborted, issues)
    | (.dirty v, issues) =>
      if check v then (.dirty v, issues) else (.dirty v, issues ++ [⟨path, message⟩])
    | (.valid v, issues) =>
      if check v then (.valid v, issues) else (.dirty v, issues ++ [⟨path, message⟩])

/-- The method `.nullable()`: `null` is accepted without consulting the inner
schema; every other input is handed to it. -/
def ZodType.nullable {α : Type} (inner : ZodType JSValue α) : ZodType JSValue (Option α) :=
  fun path input =>
    match input with
    | .null => (.valid none, [])
    | v =>
      match inner path v with
      | (.valid a, issues) => (.valid (some a), issues)
      | (.dirty a, issues) => (.dirty (some a), issues)
      | (.aborted, issues) => (.aborted, issues)

/-- The checks of a string schema that the component uses. -/
inductive ZodStringCheck where
  | trim
  | min (value : Nat) (message : String)

/-- The check loop of a string schema: `trim` replaces the data, `min` adds a
non-fatal issue when the data is shorter than the bound. -/
def zStringChecks (path : List String) :
    List ZodStringCheck → String → Bool → List ZodIssue → ParseReturn String × List ZodIssue
  | [], data, dirty, issues => (if dirty then .dirty data else .valid data, issues)
  | .trim :: rest, data, dirty, issues => zStringChecks path rest (jsTrim data) dirty issues
  | .min value message :: rest, data, dirty, issues =>
    if jsLength data < value then
      zStringChecks path rest data true (issues ++ [⟨path, message⟩])
    else
      zStringChecks path rest data dirty issues

/-- The schema `z.string()` followed by the given checks, on an input that is a
string. -/
def zString (checks : List ZodStringCheck) : ZodType String String :=
  fun path input => zStringChecks path checks input false []

/-- The result of `safeParse`. -/
inductive SafeParseReturn (α : Type) where
  | success (data : α)
  | failure (issues : List ZodIssue)
deriving DecidableEq

/-- The method `safeParse`: success exactly when the status is valid. -/
def ZodType.safeParse {ι α : Type} (schema : ZodType ι α) (input : ι) : SafeParseReturn α :=
  match schema [] input with
  | (.valid v, _) => .success v
  | (_, issues) => .failure issues

/-- The `fieldErrors` object: keys in insertion order, each with its messages. -/
abbrev FieldErrors := List (String × List String)

/-- The statement `fieldErrors[key] = fieldErrors[key] || []` followed by
`fieldErrors[key].push(message)`. -/
def FieldErrors.push : FieldErrors → String → String → FieldErrors
  | [], key, message => [(key, [message])]
  | (k, ms) :: rest, key, message =>
    if k = key then (k, ms ++ [message]) :: rest
    else (k, ms) :: FieldErrors.push rest key message

/-- Property access `fieldErrors[key]`; `none` is `undefined`. -/
def FieldErrors.get : FieldErrors → String → Option (List String)
  | [], _ => none
  | (k, ms) :: rest, key => if k = key then some ms else FieldErrors.get rest key

/-- The result of `error.flatten()`. -/
structure Flattened where
  formErrors : List String
  fieldErrors : FieldErrors

/-- The method `flatten` of a zod error: an issue with a non-empty path goes
under the first element of its path, the others are form errors. -/
def flatten (issues : List ZodIssue) : Flattened :=
  issues.foldl
    (fun acc sub =>
      match sub.path with
      | key :: _ => { acc with fieldErrors := acc.fieldErrors.push key sub.message }
      | [] => { acc with formErrors := acc.formErrors ++ [sub.message] })
    ⟨[], []⟩

/-! ## The schema of the form -/

/-- The constant `MAX_FILE_SIZE`, 5 MiB. -/
def MAX_FILE_SIZE : Nat := 5 * 1024 * 1024

/-- The constant `ACCEPTED_IMAGE_TYPES`. -/
def ACCEPTED_IMAGE_TYPES : List String :=
  ["image/jpeg", "image/jpg", "image/png", "image/webp"]

/-- The message of the `instanceof` check of `thumbnail`. -/
def thumbnailRequiredMessage : String := "A imagem do spot é obrigatória."

/-- The message of the size refinement of `thumbnail`. -/
def thumbnailSizeMessage : String := "O tamanho máximo da imagem é 5MB."

/-- The message of the type refinement of `thumbnail`. -/
def thumbnailTypeMessage : String :=
  "Apenas os formatos .jpg, .jpeg, .png e .webp são aceitos."

/-- The message of the `min(1)` check of `company`. -/
def companyMessage : String := "O nome da empresa é obrigatório."

/-- The message of the `min(1)` check of `techs`. -/
def techsMessage : String := "Informe ao menos uma tecnologia."

/-- The message of the refinement of `price`. -/
def priceMessage : String := "O valor da diária deve ser um número válido."

/-- The field `thumbnail` of `spotSchema`. -/
def thumbnailSchema : ZodType JSValue (Option File) :=
  (((zInstanceofFile thumbnailRequiredMessage).refine
      (fun file => decide (file.size ≤ MAX_FILE_SIZE)) thumbnailSizeMessage).refine
      (fun file => ACCEPTED_IMAGE_TYPES.contains file.type) thumbnailTypeMessage).nullable

/-- The field `company` of `spotSchema`. -/
def companySchema : ZodType String String :=
  zString [.trim, .min 1 companyMessage]

/-- The field `techs` of `spotSchema`. -/
def techsSchema : ZodType String String :=
  zString [.trim, .min 1 techsMessage]

/-- The predicate of the refinement of `price`:
`val === '' || !isNaN(parseFloat(val))`. -/
def priceCheck (val : String) : Bool :=
  val == "" || !isNaN (parseFloat val)

/-- The field `price` of `spotSchema`. -/
def priceSchema : ZodType String String :=
  (zString []).refine priceCheck priceMessage

/-- The object `{ thumbnail, company, techs, price }` handed to the schema. -/
structure Draft where
  thumbnail : JSValue
  company : String
  techs : String
  price : String
deriving DecidableEq

/-- The output of the schema. -/
structure SpotData where
  thumbnail : Option File
  company : String
  techs : String
  price : String
deriving DecidableEq

/-- The value carried by a parse result that was not aborted. -/
def ParseReturn.value? {α : Type} : ParseReturn α → Option α
  | .valid v => some v
  | .dirty v => some v
  | .aborted => none

/-- Whether a parse result is `OK`. -/
def ParseReturn.isValid {α : Type} : ParseReturn α → Bool
  | .valid _ => true
  | _ => false

/-- The schema `spotSchema`: every key of the shape is parsed, in the order of
the shape and under its own path, and the results are merged: aborted when one
of them is, dirty when one of them is, valid otherwise. -/
def spotSchema : ZodType Draft SpotData :=
  fun path input =>
    let t := thumbnailSchema (path ++ ["thumbnail"]) input.thumbnail
    let c := companySchema (path ++ ["company"]) input.company
    let k := techsSchema (path ++ ["techs"]) input.techs
    let p := priceSchema (path ++ ["price"]) input.price
    let issues := t.2 ++ c.2 ++ k.2 ++ p.2
    match t.1.value?, c.1.value?, k.1.value?, p.1.value? with
    | some tv, some cv, some kv, some pv =>
      if t.1.isValid && c.1.isValid && k.1.isValid && p.1.isValid then
        (.valid ⟨tv, cv, kv, pv⟩, issues)
      else
        (.dirty ⟨tv, cv, kv, pv⟩, issues)
    | _, _, _, _ => (.aborted, issues)

/-! ## The component -/

/-- The state cells of the component `New`. -/
structure FormState where
  thumbnail : JSValue
  company : String
  techs : String
  price : String
  errors : FieldErrors
deriving DecidableEq

/-- The state of the component when it is mounted. -/
def initialState : FormState :=
  ⟨.null, "", "", "", []⟩

/-- The value of an entry of a `FormData`: a file, or a string. -/
inductive FormDataEntryValue where
  | file (f : File)
  | text (s : String)
deriving DecidableEq

/-- The conversion `FormData.append` applies to the value it is given: a file
is kept, any other value is turned into a string. -/
def formDataValue : JSValue → FormDataEntryValue
  | .file f => .file f
  | .null => .text "null"
  | .undefined => .text "undefined"

/-- The effects of the submit handler on the world outside the component. -/
inductive Effect where
  | preventDefault
  | post (url : String) (data : List (String × FormDataEntryValue))
      (headers : List (String × Option String))
  | navigate (path : String)
deriving DecidableEq

/-- What the handler reads from the world: `localStorage.getItem`, and whether
the promise returned by `api.post` is fulfilled. -/
structure World where
  getItem : String → Option String
  postFulfilled : Bool

/-- The handler `handleSubmit`: the next state and the effects, in order. -/
def handleSubmit (w : World) (st : FormState) : FormState × List Effect :=
  let formData : Draft := ⟨st.thumbnail, st.company, st.techs, st.price⟩
  match spotSchema.safeParse formData with
  | .failure issues =>
    let fieldErrors := (flatten issues).fieldErrors
    ({ st with errors := fieldErrors }, [.preventDefault])
  | .success _ =>
    let st1 := { st with errors := [] }
    let user_id := w.getItem "user"
    let data : List (String × FormDataEntryValue) :=
      [("thumbnail", formDataValue st.thumbnail), ("company", .text st.company),
       ("techs", .text st.techs), ("price", .text st.price)]
    let request := Effect.post "/spots" data [("user_id", user_id)]
    if w.postFulfilled then
      (st1, [.preventDefault, request, .navigate "/dashboard"])
    else
      (st1, [.preventDefault, request])

/-! ## Auxiliary definitions of the proofs -/

/-- The messages of the issues filed under a key, in order. -/
def messagesAt (key : String) (issues : List ZodIssue) : List String :=
  (issues.filter fun i => i.path.head? = some key).map fun i => i.message

/-- The object the handler hands to the schema. -/
def FormState.draft (st : FormState) : Draft :=
  ⟨st.thumbnail, st.company, st.techs, st.price⟩

/-- The messages the field `thumbnail` raises, in order. -/
def thumbnailMessages : JSValue → List String
  | .null => []
  | .undefined => [thumbnailRequiredMessage]
  | .file f =>
    (if f.size ≤ MAX_FILE_SIZE then [] else [thumbnailSizeMessage]) ++
    (if ACCEPTED_IMAGE_TYPES.contains f.type then [] else [thumbnailTypeMessage])

/-- The messages the field `company` raises. -/
def companyMessages (s : String) : List String :=
  if jsLength (jsTrim s) < 1 then [companyMessage] else []

/-- The messages the field `techs` raises. -/
def techsMessages (s : String) : List String :=
  if jsLength (jsTrim s) < 1 then [techsMessage] else []

/-- The messages the field `price` raises. -/
def priceMessages (s : String) : List String :=
  if priceCheck s then [] else [priceMessage]

/-- The parsed value of a thumbnail the schema accepts. -/
def thumbnailData : JSValue → Option File
  | .file f => some f
  | _ => none

/-- A world for the examples: the user 64c1 is logged in and the request is
fulfilled. -/
def exampleWorld : World :=
  ⟨fun key => if key = "user" then some "64c1" else none, true⟩

/-- A list of characters that begins with an unsigned numeral: `Infinity`, a
decimal digit, or a dot followed by a decimal digit. -/
def StartsNumeral (u : List Char) : Prop :=
  "Infinity".data <+: u ∨ (∃ d tl, u = d :: tl ∧ isDecimalDigit d = true) ∨
    (∃ d tl, u = '.' :: d :: tl ∧ isDecimalDigit d = true)

/-- A list of characters that consists of whitespace, then an optional sign,
then something that begins with an unsigned numeral. -/
def HasNumericStart (l : List Char) : Prop :=
  ∃ ws sg rest, l = ws ++ (sg ++ rest) ∧ (∀ c ∈ ws, isJsWhitespace c = true) ∧
    (sg = [] ∨ sg = ['+'] ∨ sg = ['-']) ∧ StartsNumeral rest

/-- The words of the spec, "p parses as a valid floating-point number", read on
the whole string: a decimal literal starts at the first character of the string
and ends at its last. -/
def specValidFloat (p : String) : Bool :=
  match scanDecimalLiteral p.data with
  | some (_, []) => true
  | _ => false

/-! ## Lemmas on the error object -/

theorem FieldErrors.get_push_same (fe : FieldErrors) (key message : String) :
    (fe.push key message).get key = some ((fe.get key).getD [] ++ [message]) := by
  induction fe with
  | nil => simp [FieldErrors.push, FieldErrors.get]
  | cons hd tl ih =>
    obtain ⟨k, ms⟩ := hd
    by_cases h : k = key
    · simp [FieldErrors.push, FieldErrors.get, h]
    · simp [FieldErrors.push, FieldErrors.get, h, ih]

theorem FieldErrors.get_push_other (fe : FieldErrors) (key other message : String)
    (h : other ≠ key) : (fe.push other message).get key = fe.get key := by
  induction fe with
  | nil => simp [FieldErrors.push, FieldErrors.get, h]
  | cons hd tl ih =>
    obtain ⟨k, ms⟩ := hd
    by_cases hk : k = other
    · subst hk
      simp [FieldErrors.push, FieldErrors.get, h]
    · by_cases hk2 : k = key
      · subst hk2
        simp [FieldErrors.push, FieldErrors.get, hk]
      · simp [FieldErrors.push, FieldErrors.get, hk, hk2, ih]

theorem messagesAt_append (key : String) (xs ys : List ZodIssue) :
    messagesAt key (xs ++ ys) = messagesAt key xs ++ messagesAt key ys := by
  simp [messagesAt]

theorem flatten_foldl_get (key : String) (issues : List ZodIssue) (acc : Flattened) :
    (issues.foldl
      (fun acc sub =>
        match sub.path with
        | key :: _ => { acc with fieldErrors := acc.fieldErrors.push key sub.message }
        | [] => { acc with formErrors := acc.formErrors ++ [sub.message] })
      acc).fieldErrors.get key =
    if messagesAt key issues = [] then acc.fieldErrors.get key
    else some ((acc.fieldErrors.get key).getD [] ++ messagesAt key issues) := by
  induction issues generalizing acc with
  | nil => simp [messagesAt]
  | cons i rest ih =>
    obtain ⟨path, message⟩ := i
    rw [List.foldl_cons, ih]
    cases path with
    | nil => simp [messagesAt]
    | cons k ks =>
      by_cases hk : k = key
      · subst hk
        by_cases hr : messagesAt k rest = []
        · simp [messagesAt, FieldErrors.get_push_same] at hr ⊢
        · simp [messagesAt, FieldErrors.get_push_same] at hr ⊢
      · by_cases hr : messagesAt key rest = []
        · simp [messagesAt, FieldErrors.get_push_other _ _ _ _ hk, hk] at hr ⊢
        · simp [messagesAt, FieldErrors.get_push_other _ _ _ _ hk, hk] at hr ⊢

/-- Reading a key of the flattened error: absent when no issue is filed under
the key, otherwise the messages of those issues in order. -/
theorem flatten_get (key : String) (issues : List ZodIssue) :
    (flatten issues).fieldErrors.get key =
      if messagesAt key issues = [] then none else some (messagesAt key issues) := by
  unfold flatten
  rw [flatten_foldl_get]
  simp [FieldErrors.get]

/-! ## The four fields, in closed form -/

theorem thumbnailSchema_null (path : List String) :
    thumbnailSchema path .null = (.valid none, []) := rfl

theorem thumbnailSchema_undefined (path : List String) :
    thumbnailSchema path .undefined = (.aborted, [⟨path, thumbnailRequiredMessage⟩]) := rfl

theorem thumbnailSchema_file (path : List String) (f : File) :
    thumbnailSchema path (.file f) =
      if f.size ≤ MAX_FILE_SIZE then
        if ACCEPTED_IMAGE_TYPES.contains f.type then (.valid (some f), [])
        else (.dirty (some f), [⟨path, thumbnailTypeMessage⟩])
      else
        if ACCEPTED_IMAGE_TYPES.contains f.type then
          (.dirty (some f), [⟨path, thumbnailSizeMessage⟩])
        else
          (.dirty (some f), [⟨path, thumbnailSizeMessage⟩, ⟨path, thumbnailTypeMessage⟩]) := by
  by_cases hs : f.size ≤ MAX_FILE_SIZE <;>
    by_cases ht : f.type ∈ ACCEPTED_IMAGE_TYPES <;>
    simp [thumbnailSchema, ZodType.nullable, ZodType.refine, zInstanceofFile, hs, ht]

theorem companySchema_eq (path : List String) (s : String) :
    companySchema path s =
      if jsLength (jsTrim s) < 1 then (.dirty (jsTrim s), [⟨path, companyMessage⟩])
      else (.valid (jsTrim s), []) := by
  by_cases h : jsLength (jsTrim s) < 1 <;>
    simp [companySchema, zString, zStringChecks, h]

theorem techsSchema_eq (path : List String) (s : String) :
    techsSchema path s =
      if jsLength (jsTrim s) < 1 then (.dirty (jsTrim s), [⟨path, techsMessage⟩])
      else (.valid (jsTrim s), []) := by
  by_cases h : jsLength (jsTrim s) < 1 <;>
    simp [techsSchema, zString, zStringChecks, h]

theorem priceSchema_eq (path : List String) (s : String) :
    priceSchema path s =
      if priceCheck s then (.valid s, []) else (.dirty s, [⟨path, priceMessage⟩]) := by
  by_cases h : priceCheck s = true <;>
    simp [priceSchema, ZodType.refine, zString, zStringChecks, h]

/-! ## The schema and the handler, in closed form -/

theorem thumbnailSchema_issues (path : List String) (t : JSValue) :
    (thumbnailSchema path t).2 = (thumbnailMessages t).map fun m => ⟨path, m⟩ := by
  cases t with
  | null => rfl
  | undefined => rfl
  | file f =>
    rw [thumbnailSchema_file]
    by_cases hs : f.size ≤ MAX_FILE_SIZE <;>
      by_cases ht : f.type ∈ ACCEPTED_IMAGE_TYPES <;>
      simp [thumbnailMessages, hs, ht]

theorem companySchema_issues (path : List String) (s : String) :
    (companySchema path s).2 = (companyMessages s).map fun m => ⟨path, m⟩ := by
  rw [companySchema_eq]
  by_cases h : jsLength (jsTrim s) < 1 <;> simp [companyMessages, h]

theorem techsSchema_issues (path : List String) (s : String) :
    (techsSchema path s).2 = (techsMessages s).map fun m => ⟨path, m⟩ := by
  rw [techsSchema_eq]
  by_cases h : jsLength (jsTrim s) < 1 <;> simp [techsMessages, h]

theorem priceSchema_issues (path : List String) (s : String) :
    (priceSchema path s).2 = (priceMessages s).map fun m => ⟨path, m⟩ := by
  rw [priceSchema_eq]
  by_cases h : priceCheck s = true <;> simp [priceMessages, h]

/-- The issues of the schema are those of its four fields, in the order of the
shape. -/
theorem spotSchema_issues (d : Draft) :
    (spotSchema [] d).2 =
      ((thumbnailMessages d.thumbnail).map fun m => ⟨["thumbnail"], m⟩) ++
      ((companyMessages d.company).map fun m => ⟨["company"], m⟩) ++
      ((techsMessages d.techs).map fun m => ⟨["techs"], m⟩) ++
      ((priceMessages d.price).map fun m => ⟨["price"], m⟩) := by
  rw [← thumbnailSchema_issues, ← companySchema_issues, ← techsSchema_issues,
    ← priceSchema_issues]
  unfold spotSchema
  simp only [List.nil_append]
  split <;> [split; skip] <;> rfl

/-- The outcome of `safeParse` on a draft: success with the parsed data exactly
when no field raises an issue, failure with the issues otherwise. -/
theorem spotSchema_safeParse (d : Draft) :
    spotSchema.safeParse d =
      if (spotSchema [] d).2 = [] then
        .success ⟨thumbnailData d.thumbnail, jsTrim d.company, jsTrim d.techs, d.price⟩
      else .failure (spotSchema [] d).2 := by
  obtain ⟨t, c, k, p⟩ := d
  have hc := companySchema_eq ["company"] c
  have hk := techsSchema_eq ["techs"] k
  have hp := priceSchema_eq ["price"] p
  by_cases h1 : jsLength (jsTrim c) < 1 <;>
    by_cases h2 : jsLength (jsTrim k) < 1 <;>
    by_cases h3 : priceCheck p = true <;>
    simp only [h1, h2, h3, if_true, if_false] at hc hk hp <;>
    cases t with
    | null =>
      simp [ZodType.safeParse, spotSchema, thumbnailSchema_null, hc, hk, hp,
        ParseReturn.value?, ParseReturn.isValid, thumbnailData]
    | undefined =>
      simp [ZodType.safeParse, spotSchema, thumbnailSchema_undefined, hc, hk, hp,
        ParseReturn.value?, ParseReturn.isValid, thumbnailData]
    | file f =>
      have ht := thumbnailSchema_file ["thumbnail"] f
      by_cases h4 : f.size ≤ MAX_FILE_SIZE <;>
        by_cases h5 : ACCEPTED_IMAGE_TYPES.contains f.type = true <;>
        simp only [h4, h5, if_true, if_false] at ht <;>
        simp [ZodType.safeParse, spotSchema, ht, hc, hk, hp,
          ParseReturn.value?, ParseReturn.isValid, thumbnailData]

/-- The error state after a submit is the flattened list of the issues of the
schema, whether or not the validation succeeded. -/
theorem handleSubmit_errors (w : World) (st : FormState) :
    (handleSubmit w st).1.errors = (flatten (spotSchema [] st.draft).2).fieldErrors := by
  unfold handleSubmit
  simp only []
  rw [show (⟨st.thumbnail, st.company, st.techs, st.price⟩ : Draft) = st.draft from rfl,
    spotSchema_safeParse]
  by_cases h : (spotSchema [] st.draft).2 = []
  · simp only [h, if_true]
    split <;> rfl
  · simp only [h, if_false]

theorem messagesAt_map (key field : String) (ms : List String) :
    messagesAt key (ms.map fun m => (⟨[field], m⟩ : ZodIssue)) =
      if field = key then ms else [] := by
  by_cases h : field = key
  · subst h
    simp [messagesAt, List.filter_map, Function.comp_def]
  · simp [messagesAt, List.filter_map, Function.comp_def, h]

/-- What the error state holds under `thumbnail` after a submit. -/
theorem handleSubmit_errors_thumbnail (w : World) (st : FormState) :
    (handleSubmit w st).1.errors.get "thumbnail" =
      if thumbnailMessages st.thumbnail = [] then none
      else some (thumbnailMessages st.thumbnail) := by
  rw [handleSubmit_errors, flatten_get, spotSchema_issues]
  simp [messagesAt_append, messagesAt_map, FormState.draft]

/-- What the error state holds under `company` after a submit. -/
theorem handleSubmit_errors_company (w : World) (st : FormState) :
    (handleSubmit w st).1.errors.get "company" =
      if companyMessages st.company = [] then none
      else some (companyMessages st.company) := by
  rw [handleSubmit_errors, flatten_get, spotSchema_issues]
  simp [messagesAt_append, messagesAt_map, FormState.draft]

/-- What the error state holds under `techs` after a submit. -/
theorem handleSubmit_errors_techs (w : World) (st : FormState) :
    (handleSubmit w st).1.errors.get "techs" =
      if techsMessages st.techs = [] then none
      else some (techsMessages st.techs) := by
  rw [handleSubmit_errors, flatten_get, spotSchema_issues]
  simp [messagesAt_append, messagesAt_map, FormState.draft]

/-- What the error state holds under `price` after a submit. -/
theorem handleSubmit_errors_price (w : World) (st : FormState) :
    (handleSubmit w st).1.errors.get "price" =
      if priceMessages st.price = [] then none
      else some (priceMessages st.price) := by
  rw [handleSubmit_errors, flatten_get, spotSchema_issues]
  simp [messagesAt_append, messagesAt_map, FormState.draft]

/-- The four counterparts of the lemmas above for the error of a failed
`safeParse`. -/
theorem flatten_spotSchema_get (d : Draft) (key : String) :
    (flatten (spotSchema [] d).2).fieldErrors.get key =
      if key = "thumbnail" then
        (if thumbnailMessages d.thumbnail = [] then none else some (thumbnailMessages d.thumbnail))
      else if key = "company" then
        (if companyMessages d.company = [] then none else some (companyMessages d.company))
      else if key = "techs" then
        (if techsMessages d.techs = [] then none else some (techsMessages d.techs))
      else if key = "price" then
        (if priceMessages d.price = [] then none else some (priceMessages d.price))
      else none := by
  rw [flatten_get, spotSchema_issues]
  by_cases h1 : key = "thumbnail"
  · subst h1; simp [messagesAt_append, messagesAt_map]
  by_cases h2 : key = "company"
  · subst h2; simp [messagesAt_append, messagesAt_map]
  by_cases h3 : key = "techs"
  · subst h3; simp [messagesAt_append, messagesAt_map]
  by_cases h4 : key = "price"
  · subst h4; simp [messagesAt_append, messagesAt_map]
  have e1 : ¬ "thumbnail" = key := fun h => h1 h.symm
  have e2 : ¬ "company" = key := fun h => h2 h.symm
  have e3 : ¬ "techs" = key := fun h => h3 h.symm
  have e4 : ¬ "price" = key := fun h => h4 h.symm
  simp [messagesAt_append, messagesAt_map, h1, h2, h3, h4, e1, e2, e3, e4]

/-- A failed `safeParse` carries the issues of the schema. -/
theorem safeParse_failure (d : Draft) (issues : List ZodIssue)
    (h : spotSchema.safeParse d = .failure issues) :
    issues = (spotSchema [] d).2 ∧ (spotSchema [] d).2 ≠ [] := by
  rw [spotSchema_safeParse] at h
  by_cases h0 : (spotSchema [] d).2 = []
  · simp [h0] at h
  · simp only [h0, if_false] at h
    injection h with h
    exact ⟨h.symm, h0⟩

/-- A successful `safeParse` means that no field raised an issue, and its data
are the normalised fields. -/
theorem safeParse_success (d : Draft) (data : SpotData)
    (h : spotSchema.safeParse d = .success data) :
    (spotSchema [] d).2 = [] ∧
      data = ⟨thumbnailData d.thumbnail, jsTrim d.company, jsTrim d.techs, d.price⟩ := by
  rw [spotSchema_safeParse] at h
  by_cases h0 : (spotSchema [] d).2 = []
  · simp only [h0, if_true] at h
    injection h with h
    exact ⟨h0, h.symm⟩
  · simp [h0] at h

/-- The handler on a draft the schema rejects. -/
theorem handleSubmit_failure (w : World) (st : FormState) (issues : List ZodIssue)
    (h : spotSchema.safeParse st.draft = .failure issues) :
    handleSubmit w st =
      ({ st with errors := (flatten issues).fieldErrors }, [.preventDefault]) := by
  unfold handleSubmit
  simp only []
  rw [show (⟨st.thumbnail, st.company, st.techs, st.price⟩ : Draft) = st.draft from rfl, h]

/-- The handler on a draft the schema accepts. -/
theorem handleSubmit_success (w : World) (st : FormState) (data : SpotData)
    (h : spotSchema.safeParse st.draft = .success data) :
    handleSubmit w st =
      ({ st with errors := [] },
        [.preventDefault,
          .post "/spots"
            [("thumbnail", formDataValue st.thumbnail), ("company", .text st.company),
              ("techs", .text st.techs), ("price", .text st.price)]
            [("user_id", w.getItem "user")]] ++
          if w.postFulfilled then [.navigate "/dashboard"] else []) := by
  unfold handleSubmit
  simp only []
  rw [show (⟨st.thumbnail, st.company, st.techs, st.price⟩ : Draft) = st.draft from rfl, h]
  cases w.postFulfilled <;> rfl

/-! ## Lemmas on strings -/

theorem dropWhile_eq_nil_iff_all (p : Char → Bool) (l : List Char) :
    l.dropWhile p = [] ↔ ∀ c ∈ l, p c = true := by
  induction l with
  | nil => simp
  | cons a tl ih =>
    by_cases h : p a = true
    · simp [List.dropWhile_cons, h, ih]
    · simp [List.dropWhile_cons, h]

theorem dropWhile_head_not (p : Char → Bool) (l : List Char) (a : Char) (tl : List Char)
    (h : l.dropWhile p = a :: tl) : p a = false := by
  induction l with
  | nil => simp at h
  | cons b rest ih =>
    by_cases hb : p b = true
    · rw [List.dropWhile_cons_of_pos hb] at h
      exact ih h
    · rw [List.dropWhile_cons_of_neg hb] at h
      injection h with h1 h2
      subst h1
      simpa using hb

/-- Trimming leaves nothing exactly when every character is whitespace. -/
theorem trimChars_eq_nil_iff (l : List Char) :
    trimEndChars (trimStartChars l) = [] ↔ ∀ c ∈ l, isJsWhitespace c = true := by
  unfold trimEndChars trimStartChars
  rw [List.reverse_eq_nil_iff, dropWhile_eq_nil_iff_all]
  constructor
  · intro h
    rw [← dropWhile_eq_nil_iff_all]
    cases hd : l.dropWhile isJsWhitespace with
    | nil => rfl
    | cons a tl =>
      have h1 := dropWhile_head_not _ _ _ _ hd
      have h2 := h a (by simp [hd])
      rw [h1] at h2
      exact absurd h2 (by simp)
  · intro h
    have h0 : l.dropWhile isJsWhitespace = [] := (dropWhile_eq_nil_iff_all _ _).2 h
    simp [h0]

theorem jsLength_eq_zero_iff (s : String) : jsLength s = 0 ↔ s.data = [] := by
  unfold jsLength
  cases s.data with
  | nil => simp
  | cons a tl =>
    simp only [List.map_cons, List.sum_cons]
    constructor
    · intro h
      split at h <;> omega
    · intro h
      simp at h

/-- The length of a trimmed string is zero exactly when every character of the
string is whitespace. -/
theorem jsLength_jsTrim_eq_zero_iff (s : String) :
    jsLength (jsTrim s) = 0 ↔ ∀ c ∈ s.data, isJsWhitespace c = true := by
  rw [jsLength_eq_zero_iff]
  exact trimChars_eq_nil_iff s.data

/-! ## Lemmas on parseFloat -/

/-- The unsigned scanner never produces `NaN`. -/
theorem scanUnsigned_not_nan (neg : Bool) (u : List Char) (n : JSNumber) (r : List Char)
    (h : scanUnsigned neg u = some (n, r)) : isNaN n = false := by
  unfold scanUnsigned at h
  split at h
  · injection h with h
    injection h with h1 h2
    subst h1
    rfl
  · simp only [] at h
    split at h
    · simp at h
    · injection h with h
      injection h with h1 h2
      subst h1
      rfl

/-- The unsigned scanner reads something exactly when the input begins with an
unsigned numeral. -/
theorem scanUnsigned_eq_none_iff (neg : Bool) (u : List Char) :
    scanUnsigned neg u = none ↔ ¬ StartsNumeral u := by
  unfold scanUnsigned StartsNumeral
  by_cases hInf : "Infinity".data.isPrefixOf u = true
  · have hp : "Infinity".data <+: u := List.isPrefixOf_iff_prefix.1 hInf
    simp [hInf, hp]
  · have hp : ¬ "Infinity".data <+: u := fun h => hInf (List.isPrefixOf_iff_prefix.2 h)
    simp only [hInf, hp, false_or, if_false, Bool.false_eq_true]
    cases u with
    | nil => simp
    | cons d tl =>
      by_cases hd : isDecimalDigit d = true
      · simp [List.takeWhile_cons, hd]
      · by_cases hdot : d = '.'
        · subst hdot
          cases tl with
          | nil => simp [List.takeWhile_cons, List.dropWhile_cons, hd]
          | cons e tl2 =>
            by_cases he : isDecimalDigit e = true
            · simp [List.takeWhile_cons, List.dropWhile_cons, hd, he]
            · simp [List.takeWhile_cons, List.dropWhile_cons, hd, he]
        · simp [List.takeWhile_cons, List.dropWhile_cons, hd, hdot]

theorem isDecimalDigit_bounds (d : Char) (h : isDecimalDigit d = true) :
    48 ≤ d.toNat ∧ d.toNat ≤ 57 := by
  simpa [isDecimalDigit] using h

theorem isJsWhitespace_of_lt (c : Char) (h1 : 33 ≤ c.toNat) (h2 : c.toNat < 160) :
    isJsWhitespace c = false := by
  unfold isJsWhitespace
  simp only [Bool.or_eq_false_iff, Bool.and_eq_false_iff, beq_eq_false_iff_ne,
    decide_eq_false_iff_not]
  refine ⟨⟨⟨⟨⟨⟨⟨⟨⟨⟨⟨⟨⟨⟨?_, ?_⟩, ?_⟩, ?_⟩, ?_⟩, ?_⟩, ?_⟩, ?_⟩, ?_⟩, ?_⟩, ?_⟩, ?_⟩, ?_⟩, ?_⟩, ?_⟩ <;>
    omega

/-- What begins with an unsigned numeral begins with a character that is
neither whitespace nor a sign. -/
theorem StartsNumeral.head (u : List Char) (h : StartsNumeral u) :
    ∃ a tl, u = a :: tl ∧ isJsWhitespace a = false ∧ a ≠ '+' ∧ a ≠ '-' := by
  rcases h with h | ⟨d, tl, rfl, hd⟩ | ⟨d, tl, rfl, _⟩
  · obtain ⟨t, rfl⟩ := h
    exact ⟨'I', "nfinity".data ++ t, rfl, by decide, by decide, by decide⟩
  · have hb := isDecimalDigit_bounds d hd
    refine ⟨d, tl, rfl, isJsWhitespace_of_lt d (by omega) (by omega), ?_, ?_⟩
    · intro e; subst e; exact absurd hb.1 (by decide)
    · intro e; subst e; exact absurd hb.1 (by decide)
  · exact ⟨'.', d :: tl, rfl, by decide, by decide, by decide⟩

theorem scanSign_of_not_sign (a : Char) (tl : List Char) (h1 : a ≠ '+') (h2 : a ≠ '-') :
    scanSign (a :: tl) = (false, a :: tl) := by
  unfold scanSign
  split
  · rename_i heq; injection heq with e1 e2; exact absurd e1 h1
  · rename_i heq; injection heq with e1 e2; exact absurd e1 h2
  · rfl

/-- The sign scanner splits its input into an optional sign and the rest. -/
theorem scanSign_split (t : List Char) :
    ∃ sg, t = sg ++ (scanSign t).2 ∧ (sg = [] ∨ sg = ['+'] ∨ sg = ['-']) := by
  unfold scanSign
  split
  · exact ⟨['+'], rfl, Or.inr (Or.inl rfl)⟩
  · exact ⟨['-'], rfl, Or.inr (Or.inr rfl)⟩
  · exact ⟨[], rfl, Or.inl rfl⟩

/-- The reading of `parseFloat` in closed form: the result is a number exactly
when the string consists of whitespace, an optional sign and something that
begins with an unsigned numeral. -/
theorem parseFloat_isNaN_iff (s : String) :
    isNaN (parseFloat s) = false ↔ HasNumericStart s.data := by
  have key : isNaN (parseFloat s) = false ↔
      StartsNumeral (scanSign (trimStartChars s.data)).2 := by
    unfold parseFloat scanDecimalLiteral
    simp only []
    cases hsc : scanUnsigned (scanSign (trimStartChars s.data)).1
        (scanSign (trimStartChars s.data)).2 with
    | none =>
      have := (scanUnsigned_eq_none_iff _ _).1 hsc
      simp [isNaN, this]
    | some nr =>
      obtain ⟨n, r⟩ := nr
      have h1 := scanUnsigned_not_nan _ _ _ _ hsc
      have h2 : StartsNumeral (scanSign (trimStartChars s.data)).2 := by
        by_contra hc
        rw [(scanUnsigned_eq_none_iff _ _).2 hc] at hsc
        exact Option.noConfusion hsc
      simp [h1, h2]
  rw [key]
  constructor
  · intro h
    obtain ⟨sg, hsplit, hsg⟩ := scanSign_split (trimStartChars s.data)
    refine ⟨s.data.takeWhile isJsWhitespace, sg, (scanSign (trimStartChars s.data)).2,
      ?_, ?_, hsg, h⟩
    · rw [← hsplit]
      exact (List.takeWhile_append_dropWhile isJsWhitespace s.data).symm
    · intro c hc
      exact (List.mem_takeWhile_imp hc)
  · rintro ⟨ws, sg, rest, hl, hws, hsg, hrest⟩
    obtain ⟨a, tl, rfl, hwa, hplus, hminus⟩ := StartsNumeral.head rest hrest
    have hdrop : trimStartChars s.data = sg ++ a :: tl := by
      unfold trimStartChars
      rw [hl, List.dropWhile_append_of_pos hws]
      rcases hsg with rfl | rfl | rfl
      · simp [List.dropWhile_cons, hwa]
      · exact List.dropWhile_cons_of_neg (show ¬ isJsWhitespace '+' = true by decide)
      · exact List.dropWhile_cons_of_neg (show ¬ isJsWhitespace '-' = true by decide)
    rw [hdrop]
    rcases hsg with rfl | rfl | rfl
    · rw [List.nil_append, scanSign_of_not_sign a tl hplus hminus]
      exact hrest
    · exact hrest
    · exact hrest

/-- A string that is a decimal literal as a whole has a numeric start. -/
theorem hasNumericStart_of_specValidFloat (p : String) (h : specValidFloat p = true) :
    HasNumericStart p.data := by
  have hs : StartsNumeral (scanSign p.data).2 := by
    by_contra hc
    have hn := (scanUnsigned_eq_none_iff (scanSign p.data).1 _).2 hc
    unfold specValidFloat scanDecimalLiteral at h
    simp only [] at h
    rw [hn] at h
    exact Bool.noConfusion h
  obtain ⟨sg, hsplit, hsg⟩ := scanSign_split p.data
  exact ⟨[], sg, (scanSign p.data).2, by simpa using hsplit, by simp, hsg, hs⟩

/-! ## The claims -/

/-- C1, as the code has it: a thumbnail that is `undefined` (no file in the file
list of the picker) makes the validation fail, whatever the other fields hold,
and the error map holds exactly the missing-image message under `thumbnail`;
a thumbnail that is `null`, the initial value of the cell, is accepted by the
nullable schema: the error state after a submit has no key `thumbnail`, and
when the other three fields are valid (company and techs not empty after
trimming, price empty or read as a number by `parseFloat`) the validation
succeeds with the thumbnail `null`, and the handler clears the errors and sends
the request with the text null as the `thumbnail` part. -/
theorem c1_thumbnail_undefined_fails_null_passes (company techs price : String) :
    (∃ issues, spotSchema.safeParse ⟨.undefined, company, techs, price⟩ = .failure issues ∧
      (flatten issues).fieldErrors.get "thumbnail" = some [thumbnailRequiredMessage]) ∧
    (∀ (w : World) (errors : FieldErrors),
      (handleSubmit w ⟨.null, company, techs, price, errors⟩).1.errors.get "thumbnail" = none) ∧
    (∀ issues, spotSchema.safeParse ⟨.null, company, techs, price⟩ = .failure issues →
      (flatten issues).fieldErrors.get "thumbnail" = none) ∧
    (1 ≤ jsLength (jsTrim company) → 1 ≤ jsLength (jsTrim techs) →
      (price = "" ∨ isNaN (parseFloat price) = false) →
      spotSchema.safeParse ⟨.null, company, techs, price⟩ =
        .success ⟨none, jsTrim company, jsTrim techs, price⟩ ∧
      ∀ (w : World) (errors : FieldErrors),
        (handleSubmit w ⟨.null, company, techs, price, errors⟩).1.errors = [] ∧
        ((handleSubmit w ⟨.null, company, techs, price, errors⟩).2.filter
            fun e => e matches .post _ _ _) =
          [.post "/spots"
            [("thumbnail", .text "null"), ("company", .text company),
              ("techs", .text techs), ("price", .text price)]
            [("user_id", w.getItem "user")]]) := by
  refine ⟨?_, ?_, ?_, ?_⟩
  · refine ⟨(spotSchema [] ⟨.undefined, company, techs, price⟩).2, ?_, ?_⟩
    · rw [spotSchema_safeParse, if_neg]
      rw [spotSchema_issues]
      simp [thumbnailMessages]
    · rw [flatten_spotSchema_get]
      simp [thumbnailMessages]
  · intro w errors
    rw [handleSubmit_errors_thumbnail]
    simp [thumbnailMessages]
  · intro issues h
    rw [(safeParse_failure _ _ h).1, flatten_spotSchema_get]
    simp [thumbnailMessages]
  · intro hc hk hp
    have hc1 : ¬ jsLength (jsTrim company) < 1 := by omega
    have hk1 : ¬ jsLength (jsTrim techs) < 1 := by omega
    have hp1 : priceCheck price = true := by
      simpa only [priceCheck, Bool.or_eq_true, beq_iff_eq, Bool.not_eq_true'] using hp
    have hi : (spotSchema [] ⟨.null, company, techs, price⟩).2 = [] := by
      rw [spotSchema_issues]
      simp [thumbnailMessages, companyMessages, techsMessages, priceMessages, hc1, hk1, hp1]
    have hs : spotSchema.safeParse ⟨.null, company, techs, price⟩ =
        .success ⟨none, jsTrim company, jsTrim techs, price⟩ := by
      rw [spotSchema_safeParse, if_pos hi]
      rfl
    refine ⟨hs, ?_⟩
    intro w errors
    rw [handleSubmit_success w ⟨.null, company, techs, price, errors⟩ _ hs]
    refine ⟨rfl, ?_⟩
    cases w.postFulfilled <;> simp [formDataValue]

/-- C1, as the code has it, at the draft with no thumbnail, company Acme, techs
React, Node and an empty price: the validation succeeds. -/
theorem c1_thumbnail_undefined_fails_null_passes_witness :
    1 ≤ jsLength (jsTrim "Acme") ∧ 1 ≤ jsLength (jsTrim "React, Node") ∧
    (("" : String) = "" ∨ isNaN (parseFloat "") = false) ∧
    spotSchema.safeParse ⟨.null, "Acme", "React, Node", ""⟩ =
      .success ⟨none, jsTrim "Acme", jsTrim "React, Node", ""⟩ :=
  ⟨by decide, by decide, Or.inl rfl,
    ((c1_thumbnail_undefined_fails_null_passes "Acme" "React, Node" "").2.2.2
      (by decide) (by decide) (Or.inl rfl)).1⟩

/-- C1 refuted as stated: with the initial thumbnail `null` and the other
fields valid, the validation succeeds; with the other fields invalid it fails,
and the error map has no key `thumbnail`. -/
theorem c1_null_thumbnail_counterexample :
    spotSchema.safeParse ⟨.null, "Acme", "React, Node", ""⟩ =
      .success ⟨none, "Acme", "React, Node", ""⟩ ∧
    spotSchema.safeParse ⟨.null, "", "", "xyz"⟩ =
      .failure [⟨["company"], companyMessage⟩, ⟨["techs"], techsMessage⟩,
        ⟨["price"], priceMessage⟩] ∧
    (flatten [⟨["company"], companyMessage⟩, ⟨["techs"], techsMessage⟩,
        ⟨["price"], priceMessage⟩]).fieldErrors.get "thumbnail" = none := by
  decide

/-- C2: a file of more than 5,242,880 bytes makes the validation fail whatever
its MIME type and whatever the other fields, and the first message under
`thumbnail` is the size message; a file of exactly 5,242,880 bytes and of an
accepted type leaves no entry under `thumbnail`. -/
theorem c2_thumbnail_size_limit (f : File) (company techs price : String) :
    (5242880 < f.size →
      ∃ issues, spotSchema.safeParse ⟨.file f, company, techs, price⟩ = .failure issues ∧
        ∃ more, (flatten issues).fieldErrors.get "thumbnail" =
          some (thumbnailSizeMessage :: more)) ∧
    (f.size = 5242880 →
      f.type ∈ ["image/jpeg", "image/jpg", "image/png", "image/webp"] →
      (∀ (w : World) (errors : FieldErrors),
        (handleSubmit w ⟨.file f, company, techs, price, errors⟩).1.errors.get "thumbnail"
          = none) ∧
      (∀ issues, spotSchema.safeParse ⟨.file f, company, techs, price⟩ = .failure issues →
        (flatten issues).fieldErrors.get "thumbnail" = none)) := by
  constructor
  · intro hs
    have hs2 : ¬ f.size ≤ MAX_FILE_SIZE := by
      simp only [MAX_FILE_SIZE]; omega
    have hm : thumbnailMessages (.file f) =
        thumbnailSizeMessage ::
          (if ACCEPTED_IMAGE_TYPES.contains f.type then [] else [thumbnailTypeMessage]) := by
      simp [thumbnailMessages, hs2]
    refine ⟨(spotSchema [] ⟨.file f, company, techs, price⟩).2, ?_, ?_⟩
    · rw [spotSchema_safeParse, if_neg]
      rw [spotSchema_issues, hm]
      simp
    · rw [flatten_spotSchema_get]
      simp only [if_true, hm]
      exact ⟨_, if_neg (List.cons_ne_nil _ _)⟩
  · intro hs ht
    have hs2 : f.size ≤ MAX_FILE_SIZE := by
      simp only [MAX_FILE_SIZE]; omega
    have ht2 : ACCEPTED_IMAGE_TYPES.contains f.type = true := by
      simpa [ACCEPTED_IMAGE_TYPES] using ht
    have hm : thumbnailMessages (.file f) = [] := by
      simp only [thumbnailMessages, hs2, ht2, if_true, List.append_nil]
    constructor
    · intro w errors
      rw [handleSubmit_errors_thumbnail]
      simp [hm]
    · intro issues h
      rw [(safeParse_failure _ _ h).1, flatten_spotSchema_get]
      simp [hm]

/-- C2 at a file of 6,000,000 bytes of type image/png, and at a file of exactly
5,242,880 bytes of that type. -/
theorem c2_thumbnail_size_limit_witness :
    (5242880 < (File.mk 6000000 "image/png").size ∧
      ∃ issues, spotSchema.safeParse ⟨.file ⟨6000000, "image/png"⟩, "Acme", "React", ""⟩
          = .failure issues ∧
        ∃ more, (flatten issues).fieldErrors.get "thumbnail" =
          some (thumbnailSizeMessage :: more)) ∧
    ((File.mk 5242880 "image/png").size = 5242880 ∧
      (File.mk 5242880 "image/png").type ∈ ["image/jpeg", "image/jpg", "image/png", "image/webp"] ∧
      ∀ (w : World) (errors : FieldErrors),
        (handleSubmit w ⟨.file ⟨5242880, "image/png"⟩, "Acme", "React", "", errors⟩).1.errors.get
          "thumbnail" = none) :=
  ⟨⟨by decide, (c2_thumbnail_size_limit ⟨6000000, "image/png"⟩ "Acme" "React" "").1 (by decide)⟩,
    ⟨rfl, by decide,
      ((c2_thumbnail_size_limit ⟨5242880, "image/png"⟩ "Acme" "React" "").2 rfl (by decide)).1⟩⟩

/-- C3: a file whose MIME type is not one of the four accepted types makes the
validation fail with the type message under `thumbnail`, whatever the other
fields; when its size is at most 5,242,880 bytes the type message is the only
one; a file within the size limit and of an accepted type leaves no entry
under `thumbnail`. -/
theorem c3_thumbnail_type (f : File) (company techs price : String) :
    (f.type ∉ ["image/jpeg", "image/jpg", "image/png", "image/webp"] →
      ∃ issues, spotSchema.safeParse ⟨.file f, company, techs, price⟩ = .failure issues ∧
        (∃ ms, (flatten issues).fieldErrors.get "thumbnail" = some ms ∧
          thumbnailTypeMessage ∈ ms) ∧
        (f.size ≤ 5242880 →
          (flatten issues).fieldErrors.get "thumbnail" = some [thumbnailTypeMessage])) ∧
    (f.size ≤ 5242880 →
      f.type ∈ ["image/jpeg", "image/jpg", "image/png", "image/webp"] →
      (∀ (w : World) (errors : FieldErrors),
        (handleSubmit w ⟨.file f, company, techs, price, errors⟩).1.errors.get "thumbnail"
          = none) ∧
      (∀ issues, spotSchema.safeParse ⟨.file f, company, techs, price⟩ = .failure issues →
        (flatten issues).fieldErrors.get "thumbnail" = none)) := by
  constructor
  · intro ht
    have ht2 : f.type ∉ ACCEPTED_IMAGE_TYPES := ht
    have hm : thumbnailMessages (.file f) =
        (if f.size ≤ MAX_FILE_SIZE then [] else [thumbnailSizeMessage]) ++
          [thumbnailTypeMessage] := by
      simp [thumbnailMessages, ht2]
    refine ⟨(spotSchema [] ⟨.file f, company, techs, price⟩).2, ?_, ?_, ?_⟩
    · rw [spotSchema_safeParse, if_neg]
      rw [spotSchema_issues, hm]
      simp
    · rw [flatten_spotSchema_get]
      simp only [if_true, hm]
      refine ⟨_, if_neg (by simp), by simp⟩
    · intro hs
      have hs2 : f.size ≤ MAX_FILE_SIZE := by
        simp only [MAX_FILE_SIZE]; omega
      rw [flatten_spotSchema_get]
      simp [hm, hs2]
  · intro hs ht
    have hs2 : f.size ≤ MAX_FILE_SIZE := by
      simp only [MAX_FILE_SIZE]; omega
    have ht2 : ACCEPTED_IMAGE_TYPES.contains f.type = true := by
      simpa [ACCEPTED_IMAGE_TYPES] using ht
    have hm : thumbnailMessages (.file f) = [] := by
      simp only [thumbnailMessages, hs2, ht2, if_true, List.append_nil]
    constructor
    · intro w errors
      rw [handleSubmit_errors_thumbnail]
      simp [hm]
    · intro issues h
      rw [(safeParse_failure _ _ h).1, flatten_spotSchema_get]
      simp [hm]

/-- C3 at a file of 1,000 bytes of type image/gif, and at one of type
image/webp. -/
theorem c3_thumbnail_type_witness :
    ((File.mk 1000 "image/gif").type ∉ ["image/jpeg", "image/jpg", "image/png", "image/webp"] ∧
      ∃ issues, spotSchema.safeParse ⟨.file ⟨1000, "image/gif"⟩, "Acme", "React", ""⟩
          = .failure issues ∧
        (∃ ms, (flatten issues).fieldErrors.get "thumbnail" = some ms ∧
          thumbnailTypeMessage ∈ ms) ∧
        ((File.mk 1000 "image/gif").size ≤ 5242880 →
          (flatten issues).fieldErrors.get "thumbnail" = some [thumbnailTypeMessage])) ∧
    ((File.mk 1000 "image/webp").size ≤ 5242880 ∧
      (File.mk 1000 "image/webp").type ∈ ["image/jpeg", "image/jpg", "image/png", "image/webp"] ∧
      ∀ (w : World) (errors : FieldErrors),
        (handleSubmit w ⟨.file ⟨1000, "image/webp"⟩, "Acme", "React", "", errors⟩).1.errors.get
          "thumbnail" = none) :=
  ⟨⟨by decide, (c3_thumbnail_type ⟨1000, "image/gif"⟩ "Acme" "React" "").1 (by decide)⟩,
    ⟨by decide, by decide,
      ((c3_thumbnail_type ⟨1000, "image/webp"⟩ "Acme" "React" "").2 (by decide) (by decide)).1⟩⟩

/-- C4: after a submit, `company` carries its "empty" message exactly when the
length of the trimmed value is zero, which is exactly when every character of
the value is whitespace, and carries nothing otherwise; likewise `techs`. -/
theorem c4_company_techs_empty_after_trim (w : World) (st : FormState) :
    ((handleSubmit w st).1.errors.get "company" = some [companyMessage] ↔
      jsLength (jsTrim st.company) = 0) ∧
    ((handleSubmit w st).1.errors.get "company" = none ↔
      jsLength (jsTrim st.company) ≠ 0) ∧
    (jsLength (jsTrim st.company) = 0 ↔ ∀ c ∈ st.company.data, isJsWhitespace c = true) ∧
    ((handleSubmit w st).1.errors.get "techs" = some [techsMessage] ↔
      jsLength (jsTrim st.techs) = 0) ∧
    ((handleSubmit w st).1.errors.get "techs" = none ↔
      jsLength (jsTrim st.techs) ≠ 0) ∧
    (jsLength (jsTrim st.techs) = 0 ↔ ∀ c ∈ st.techs.data, isJsWhitespace c = true) := by
  rw [handleSubmit_errors_company, handleSubmit_errors_techs]
  refine ⟨?_, ?_, jsLength_jsTrim_eq_zero_iff _, ?_, ?_, jsLength_jsTrim_eq_zero_iff _⟩
  · by_cases h : jsLength (jsTrim st.company) = 0
    · simp [companyMessages, h]
    · have h1 : ¬ jsLength (jsTrim st.company) < 1 := by omega
      simp [companyMessages, h, h1]
  · by_cases h : jsLength (jsTrim st.company) = 0
    · simp [companyMessages, h]
    · have h1 : ¬ jsLength (jsTrim st.company) < 1 := by omega
      simp [companyMessages, h, h1]
  · by_cases h : jsLength (jsTrim st.techs) = 0
    · simp [techsMessages, h]
    · have h1 : ¬ jsLength (jsTrim st.techs) < 1 := by omega
      simp [techsMessages, h, h1]
  · by_cases h : jsLength (jsTrim st.techs) = 0
    · simp [techsMessages, h]
    · have h1 : ¬ jsLength (jsTrim st.techs) < 1 := by omega
      simp [techsMessages, h, h1]

/-- C4 at a company of three spaces, which fails, and at the techs
" React, Node ", which passes. -/
theorem c4_company_techs_empty_after_trim_witness :
    (handleSubmit exampleWorld ⟨.null, "   ", " React, Node ", "", []⟩).1.errors.get "company" =
      some [companyMessage] ∧
    (handleSubmit exampleWorld ⟨.null, "   ", " React, Node ", "", []⟩).1.errors.get "techs" =
      none :=
  ⟨(c4_company_techs_empty_after_trim exampleWorld
      ⟨.null, "   ", " React, Node ", "", []⟩).1.2 (by decide),
    (c4_company_techs_empty_after_trim exampleWorld
      ⟨.null, "   ", " React, Node ", "", []⟩).2.2.2.2.1.2 (by decide)⟩

/-- C5 refuted as stated: the prices 12abc, 1,5 and 12.5.7 are not empty and
are not floating-point numbers, yet the field passes, because `parseFloat`
reads the numeral that starts the string and ignores what follows it. -/
theorem c5_trailing_text_counterexample :
    spotSchema.safeParse ⟨.file ⟨1000000, "image/jpeg"⟩, "Acme", "React", "12abc"⟩ =
      .success ⟨some ⟨1000000, "image/jpeg"⟩, "Acme", "React", "12abc"⟩ ∧
    (handleSubmit exampleWorld
      ⟨.file ⟨1000000, "image/jpeg"⟩, "Acme", "React", "12abc", []⟩).1.errors.get "price" =
        none ∧
    "12abc" ≠ "" ∧ specValidFloat "12abc" = false ∧
    parseFloat "12abc" = .decimal false 12 0 ∧
    priceCheck "1,5" = true ∧ specValidFloat "1,5" = false ∧
    priceCheck "12.5.7" = true ∧ specValidFloat "12.5.7" = false := by
  decide

/-- C5, as the code has it: after a submit, `price` carries no error exactly
when the value is the empty string or consists of whitespace, an optional sign
and something that begins with `Infinity`, a digit, or a dot and a digit, and
carries the invalid-price message alone otherwise; that condition is exactly
when `parseFloat` reads a number, whatever follows the numeral.  A value that
is a decimal literal as a whole passes; the empty string and 12.50 pass, abc
fails. -/
theorem c5_price_empty_or_numeric_start (w : World) (st : FormState) :
    ((handleSubmit w st).1.errors.get "price" = none ↔
      (st.price = "" ∨ HasNumericStart st.price.data)) ∧
    ((handleSubmit w st).1.errors.get "price" = some [priceMessage] ↔
      ¬ (st.price = "" ∨ HasNumericStart st.price.data)) ∧
    (isNaN (parseFloat st.price) = false ↔ HasNumericStart st.price.data) ∧
    (specValidFloat st.price = true → (handleSubmit w st).1.errors.get "price" = none) ∧
    (∀ t c k e, (handleSubmit w ⟨t, c, k, "", e⟩).1.errors.get "price" = none) ∧
    (∀ t c k e, (handleSubmit w ⟨t, c, k, "12.50", e⟩).1.errors.get "price" = none) ∧
    (∀ t c k e, (handleSubmit w ⟨t, c, k, "abc", e⟩).1.errors.get "price" =
      some [priceMessage]) := by
  have hcheck : priceCheck st.price = true ↔
      (st.price = "" ∨ HasNumericStart st.price.data) := by
    rw [← parseFloat_isNaN_iff]
    simp only [priceCheck, Bool.or_eq_true, beq_iff_eq, Bool.not_eq_true']
  have hnone : (handleSubmit w st).1.errors.get "price" = none ↔
      (st.price = "" ∨ HasNumericStart st.price.data) := by
    rw [handleSubmit_errors_price, ← hcheck]
    by_cases h : priceCheck st.price = true <;> simp [priceMessages, h]
  refine ⟨hnone, ?_, parseFloat_isNaN_iff _, ?_, ?_, ?_, ?_⟩
  · rw [handleSubmit_errors_price, ← hcheck]
    by_cases h : priceCheck st.price = true <;> simp [priceMessages, h]
  · intro h
    exact hnone.2 (Or.inr (hasNumericStart_of_specValidFloat _ h))
  · intro t c k e
    rw [handleSubmit_errors_price]
    show (if priceMessages "" = [] then none else some (priceMessages "")) = none
    decide
  · intro t c k e
    rw [handleSubmit_errors_price]
    show (if priceMessages "12.50" = [] then none else some (priceMessages "12.50")) = none
    decide
  · intro t c k e
    rw [handleSubmit_errors_price]
    show (if priceMessages "abc" = [] then none else some (priceMessages "abc")) =
      some [priceMessage]
    decide

/-- C5, as the code has it, at the price " -.5e3 per day", from which
`parseFloat` reads -500, and at the price 12.50, a literal as a whole. -/
theorem c5_price_empty_or_numeric_start_witness :
    parseFloat " -.5e3 per day" = .decimal true 5 2 ∧
    (handleSubmit exampleWorld ⟨.null, "Acme", "React", " -.5e3 per day", []⟩).1.errors.get
      "price" = none ∧
    specValidFloat "12.50" = true ∧
    (handleSubmit exampleWorld ⟨.null, "Acme", "React", "12.50", []⟩).1.errors.get
      "price" = none :=
  ⟨by decide,
    (c5_price_empty_or_numeric_start exampleWorld
      ⟨.null, "Acme", "React", " -.5e3 per day", []⟩).1.2
      (Or.inr ((parseFloat_isNaN_iff _).1 (by decide))),
    by decide,
    (c5_price_empty_or_numeric_start exampleWorld
      ⟨.null, "Acme", "React", "12.50", []⟩).2.2.2.1 (by decide)⟩

/-- C6: when the validation of the form state fails, the handler stores the
flattened field errors of the validator as the new `errors` state, performs no
request and no navigation, and leaves the four field values unchanged. -/
theorem c6_failure_stores_errors_and_aborts (w : World) (st : FormState)
    (issues : List ZodIssue)
    (h : spotSchema.safeParse ⟨st.thumbnail, st.company, st.techs, st.price⟩ = .failure issues) :
    (handleSubmit w st).1.errors = (flatten issues).fieldErrors ∧
    (∀ url data headers, Effect.post url data headers ∉ (handleSubmit w st).2) ∧
    (∀ path, Effect.navigate path ∉ (handleSubmit w st).2) ∧
    (handleSubmit w st).1.thumbnail = st.thumbnail ∧
    (handleSubmit w st).1.company = st.company ∧
    (handleSubmit w st).1.techs = st.techs ∧
    (handleSubmit w st).1.price = st.price := by
  rw [handleSubmit_failure w st issues h]
  simp

/-- C6 at the form state with no thumbnail, empty company and techs and the
price xyz. -/
theorem c6_failure_stores_errors_and_aborts_witness :
    spotSchema.safeParse ⟨.null, "", "", "xyz"⟩ =
      .failure [⟨["company"], companyMessage⟩, ⟨["techs"], techsMessage⟩,
        ⟨["price"], priceMessage⟩] ∧
    (handleSubmit exampleWorld ⟨.null, "", "", "xyz", []⟩).1.errors =
      (flatten [⟨["company"], companyMessage⟩, ⟨["techs"], techsMessage⟩,
        ⟨["price"], priceMessage⟩]).fieldErrors ∧
    (∀ url data headers,
      Effect.post url data headers ∉ (handleSubmit exampleWorld ⟨.null, "", "", "xyz", []⟩).2) :=
  ⟨by decide,
    (c6_failure_stores_errors_and_aborts exampleWorld ⟨.null, "", "", "xyz", []⟩
      [⟨["company"], companyMessage⟩, ⟨["techs"], techsMessage⟩, ⟨["price"], priceMessage⟩]
      (by decide)).1,
    (c6_failure_stores_errors_and_aborts exampleWorld ⟨.null, "", "", "xyz", []⟩
      [⟨["company"], companyMessage⟩, ⟨["techs"], techsMessage⟩, ⟨["price"], priceMessage⟩]
      (by decide)).2.1⟩

/-- C7: when the validation of the form state succeeds, the handler clears the
error state, performs exactly one request, a POST to `/spots` whose body has
the four parts `thumbnail`, `company`, `techs`, `price` in that order and whose
header `user_id` is the value stored under `user`, and, when the request is
fulfilled, navigates to `/dashboard` after it; when the request is rejected it
does not navigate. -/
theorem c7_success_posts_and_navigates (w : World) (st : FormState) (data : SpotData)
    (h : spotSchema.safeParse ⟨st.thumbnail, st.company, st.techs, st.price⟩ = .success data) :
    (handleSubmit w st).1.errors = [] ∧
    (∃ body,
      body.map Prod.fst = ["thumbnail", "company", "techs", "price"] ∧
      ((handleSubmit w st).2.filter fun e => e matches .post _ _ _) =
        [.post "/spots" body [("user_id", w.getItem "user")]] ∧
      (w.postFulfilled = true →
        (handleSubmit w st).2 =
          [.preventDefault, .post "/spots" body [("user_id", w.getItem "user")],
            .navigate "/dashboard"]) ∧
      (w.postFulfilled = false →
        (handleSubmit w st).2 =
          [.preventDefault, .post "/spots" body [("user_id", w.getItem "user")]])) := by
  rw [handleSubmit_success w st data h]
  refine ⟨rfl,
    [("thumbnail", formDataValue st.thumbnail), ("company", .text st.company),
      ("techs", .text st.techs), ("price", .text st.price)], rfl, ?_, ?_, ?_⟩
  · cases w.postFulfilled <;> simp
  · intro hp; simp [hp]
  · intro hp; simp [hp]

/-- C7 at the draft of the end-to-end scenario: a JPEG of 1 MB, company Acme,
techs React, Node and an empty price. -/
theorem c7_success_posts_and_navigates_witness :
    spotSchema.safeParse ⟨.file ⟨1000000, "image/jpeg"⟩, "Acme", "React, Node", ""⟩ =
      .success ⟨some ⟨1000000, "image/jpeg"⟩, "Acme", "React, Node", ""⟩ ∧
    (handleSubmit exampleWorld
      ⟨.file ⟨1000000, "image/jpeg"⟩, "Acme", "React, Node", "", []⟩).1.errors = [] :=
  ⟨by decide,
    (c7_success_posts_and_navigates exampleWorld
      ⟨.file ⟨1000000, "image/jpeg"⟩, "Acme", "React, Node", "", []⟩
      ⟨some ⟨1000000, "image/jpeg"⟩, "Acme", "React, Node", ""⟩ (by decide)).1⟩

/-- C8 refuted as stated: a thumbnail of 6,000,000 bytes and of type image/gif
fails both refinements, and the error map holds two messages under `thumbnail`,
the size message and then the type message. -/
theorem c8_two_messages_counterexample :
    spotSchema.safeParse ⟨.file ⟨6000000, "image/gif"⟩, "Acme", "React", ""⟩ =
      .failure [⟨["thumbnail"], thumbnailSizeMessage⟩, ⟨["thumbnail"], thumbnailTypeMessage⟩] ∧
    (flatten [⟨["thumbnail"], thumbnailSizeMessage⟩,
        ⟨["thumbnail"], thumbnailTypeMessage⟩]).fieldErrors.get "thumbnail" =
      some [thumbnailSizeMessage, thumbnailTypeMessage] ∧
    (handleSubmit exampleWorld
        ⟨.file ⟨6000000, "image/gif"⟩, "Acme", "React", "", []⟩).1.errors =
      [("thumbnail", [thumbnailSizeMessage, thumbnailTypeMessage])] := by
  decide

/-- C8, as the code has it: in the error map of a draft that fails validation,
`company`, `techs` and `price` carry exactly one message each; `thumbnail`
carries the missing-image message alone (the failed `instanceof` check stops
the refinements), or the messages of the refinements that fail, in rule order:
the size message alone, the type message alone, or the size message followed by
the type message when the file is both larger than 5,242,880 bytes and of an
unsupported type. -/
theorem c8_messages_per_field (d : Draft) (issues : List ZodIssue)
    (h : spotSchema.safeParse d = .failure issues) :
    (∀ ms, (flatten issues).fieldErrors.get "company" = some ms → ms = [companyMessage]) ∧
    (∀ ms, (flatten issues).fieldErrors.get "techs" = some ms → ms = [techsMessage]) ∧
    (∀ ms, (flatten issues).fieldErrors.get "price" = some ms → ms = [priceMessage]) ∧
    (∀ ms, (flatten issues).fieldErrors.get "thumbnail" = some ms →
      ms = [thumbnailRequiredMessage] ∨ ms = [thumbnailSizeMessage] ∨
      ms = [thumbnailTypeMessage] ∨ ms = [thumbnailSizeMessage, thumbnailTypeMessage]) ∧
    (∀ f, d.thumbnail = .file f → 5242880 < f.size →
      f.type ∉ ["image/jpeg", "image/jpg", "image/png", "image/webp"] →
      (flatten issues).fieldErrors.get "thumbnail" =
        some [thumbnailSizeMessage, thumbnailTypeMessage]) ∧
    (∀ f, d.thumbnail = .file f → 5242880 < f.size →
      f.type ∈ ["image/jpeg", "image/jpg", "image/png", "image/webp"] →
      (flatten issues).fieldErrors.get "thumbnail" = some [thumbnailSizeMessage]) ∧
    (∀ f, d.thumbnail = .file f → f.size ≤ 5242880 →
      f.type ∉ ["image/jpeg", "image/jpg", "image/png", "image/webp"] →
      (flatten issues).fieldErrors.get "thumbnail" = some [thumbnailTypeMessage]) ∧
    (d.thumbnail = .undefined →
      (flatten issues).fieldErrors.get "thumbnail" = some [thumbnailRequiredMessage]) := by
  rw [(safeParse_failure _ _ h).1]
  simp only [flatten_spotSchema_get]
  refine ⟨?_, ?_, ?_, ?_, ?_, ?_, ?_, ?_⟩
  · intro ms
    by_cases hc : jsLength (jsTrim d.company) < 1 <;> simp [companyMessages, hc]
    exact fun e => e.symm
  · intro ms
    by_cases hc : jsLength (jsTrim d.techs) < 1 <;> simp [techsMessages, hc]
    exact fun e => e.symm
  · intro ms
    by_cases hc : priceCheck d.price = true <;> simp [priceMessages, hc]
    exact fun e => e.symm
  · intro ms
    cases d.thumbnail with
    | null => simp [thumbnailMessages]
    | undefined =>
      simp [thumbnailMessages]
      exact fun e => Or.inl e.symm
    | file f =>
      by_cases hs : f.size ≤ MAX_FILE_SIZE <;>
        by_cases ht : f.type ∈ ACCEPTED_IMAGE_TYPES <;>
        simp [thumbnailMessages, hs, ht] <;>
        intro e <;> subst e <;> simp
  · intro f hf hs ht
    have hs2 : ¬ f.size ≤ MAX_FILE_SIZE := by
      simp only [MAX_FILE_SIZE]; omega
    have ht2 : f.type ∉ ACCEPTED_IMAGE_TYPES := ht
    simp [hf, thumbnailMessages, hs2, ht2]
  · intro f hf hs ht
    have hs2 : ¬ f.size ≤ MAX_FILE_SIZE := by
      simp only [MAX_FILE_SIZE]; omega
    have ht2 : f.type ∈ ACCEPTED_IMAGE_TYPES := ht
    simp [hf, thumbnailMessages, hs2, ht2]
  · intro f hf hs ht
    have hs2 : f.size ≤ MAX_FILE_SIZE := by
      simp only [MAX_FILE_SIZE]; omega
    have ht2 : f.type ∉ ACCEPTED_IMAGE_TYPES := ht
    simp [hf, thumbnailMessages, hs2, ht2]
  · intro hf
    simp [hf, thumbnailMessages]

/-- C8, as the code has it, at the draft whose thumbnail has 6,000,000 bytes
and the type image/gif. -/
theorem c8_messages_per_field_witness :
    spotSchema.safeParse ⟨.file ⟨6000000, "image/gif"⟩, "", "React", "abc"⟩ =
      .failure [⟨["thumbnail"], thumbnailSizeMessage⟩, ⟨["thumbnail"], thumbnailTypeMessage⟩,
        ⟨["company"], companyMessage⟩, ⟨["price"], priceMessage⟩] ∧
    (flatten [⟨["thumbnail"], thumbnailSizeMessage⟩, ⟨["thumbnail"], thumbnailTypeMessage⟩,
        ⟨["company"], companyMessage⟩, ⟨["price"], priceMessage⟩]).fieldErrors.get "thumbnail" =
      some [thumbnailSizeMessage, thumbnailTypeMessage] :=
  ⟨by decide,
    (c8_messages_per_field ⟨.file ⟨6000000, "image/gif"⟩, "", "React", "abc"⟩
      [⟨["thumbnail"], thumbnailSizeMessage⟩, ⟨["thumbnail"], thumbnailTypeMessage⟩,
        ⟨["company"], companyMessage⟩, ⟨["price"], priceMessage⟩]
      (by decide)).2.2.2.2.1 ⟨6000000, "image/gif"⟩ rfl (by decide) (by decide)⟩

/-- C9 refuted as stated: the draft with company " Acme " passes validation and
the validator returns the trimmed "Acme", but the `company` part of the request
is the untrimmed state value " Acme ". -/
theorem c9_payload_untrimmed_counterexample :
    spotSchema.safeParse ⟨.file ⟨1000000, "image/jpeg"⟩, " Acme ", " React ", ""⟩ =
      .success ⟨some ⟨1000000, "image/jpeg"⟩, "Acme", "React", ""⟩ ∧
    (handleSubmit exampleWorld
        ⟨.file ⟨1000000, "image/jpeg"⟩, " Acme ", " React ", "", []⟩).2 =
      [.preventDefault,
        .post "/spots"
          [("thumbnail", .file ⟨1000000, "image/jpeg"⟩), ("company", .text " Acme "),
            ("techs", .text " React "), ("price", .text "")]
          [("user_id", some "64c1")],
        .navigate "/dashboard"] ∧
    FormDataEntryValue.text " Acme " ≠ FormDataEntryValue.text "Acme" := by
  decide

/-- C9, as the code has it: for a draft that passes validation the validator
returns `company` and `techs` trimmed and `price` unchanged, while the request
carries the values of the state cells as they are: `company`, `techs` and
`price` untrimmed, and the thumbnail as `FormData.append` converts it. -/
theorem c9_validated_trimmed_payload_raw (w : World) (st : FormState) (data : SpotData)
    (h : spotSchema.safeParse ⟨st.thumbnail, st.company, st.techs, st.price⟩ = .success data) :
    data.company = jsTrim st.company ∧
    data.techs = jsTrim st.techs ∧
    data.price = st.price ∧
    ((handleSubmit w st).2.filter fun e => e matches .post _ _ _) =
      [.post "/spots"
        [("thumbnail", formDataValue st.thumbnail), ("company", .text st.company),
          ("techs", .text st.techs), ("price", .text st.price)]
        [("user_id", w.getItem "user")]] := by
  have hd := (safeParse_success _ _ h).2
  rw [handleSubmit_success w st data h]
  subst hd
  refine ⟨rfl, rfl, rfl, ?_⟩
  cases w.postFulfilled <;> simp

/-- C9, as the code has it, at the draft with company " Acme ". -/
theorem c9_validated_trimmed_payload_raw_witness :
    spotSchema.safeParse ⟨.file ⟨1000000, "image/jpeg"⟩, " Acme ", "React", "12.50"⟩ =
      .success ⟨some ⟨1000000, "image/jpeg"⟩, "Acme", "React", "12.50"⟩ ∧
    (SpotData.mk (some ⟨1000000, "image/jpeg"⟩) "Acme" "React" "12.50").company =
      jsTrim " Acme " :=
  ⟨by decide,
    (c9_validated_trimmed_payload_raw exampleWorld
      ⟨.file ⟨1000000, "image/jpeg"⟩, " Acme ", "React", "12.50", []⟩
      ⟨some ⟨1000000, "image/jpeg"⟩, "Acme", "React", "12.50"⟩ (by decide)).1⟩

/-- C10: the entry of a field in the error state after a submit depends on the
value of that field only: two form states that agree on a field have the same
entry under it (both none, or the same messages), whatever the other three
fields, the previous errors and the world are. -/
theorem c10_fields_validated_independently (w1 w2 : World) (t1 t2 : JSValue)
    (c1 c2 k1 k2 p1 p2 : String) (e1 e2 : FieldErrors) :
    (handleSubmit w1 ⟨t1, c1, k1, p1, e1⟩).1.errors.get "thumbnail" =
      (handleSubmit w2 ⟨t1, c2, k2, p2, e2⟩).1.errors.get "thumbnail" ∧
    (handleSubmit w1 ⟨t1, c1, k1, p1, e1⟩).1.errors.get "company" =
      (handleSubmit w2 ⟨t2, c1, k2, p2, e2⟩).1.errors.get "company" ∧
    (handleSubmit w1 ⟨t1, c1, k1, p1, e1⟩).1.errors.get "techs" =
      (handleSubmit w2 ⟨t2, c2, k1, p2, e2⟩).1.errors.get "techs" ∧
    (handleSubmit w1 ⟨t1, c1, k1, p1, e1⟩).1.errors.get "price" =
      (handleSubmit w2 ⟨t2, c2, k2, p1, e2⟩).1.errors.get "price" := by
  simp only [handleSubmit_errors_thumbnail, handleSubmit_errors_company,
    handleSubmit_errors_techs, handleSubmit_errors_price, and_self]

end AircncWeb
